import Mathlib

set_option maxRecDepth 100000

/-!
Verification of the compare-go load-test repository.

The repository contains a Go HTTP service (`go-service/main.go`, embedded here
with `go` prefixes), a TypeScript Fastify service (`ts-service/src/server.ts`,
embedded with `ts` prefixes) and a k6 load script (`k6/loadtest.js`, embedded
with `k6` prefixes).  Machine arithmetic is embedded explicitly: Go `int` and
`int64` arithmetic wraps modulo 2^64 (64-bit platform), JavaScript `number`
arithmetic on integers rounds each operation to the nearest float64, and
JavaScript `BigInt` and Go `%` are truncated remainder (`Int.tmod`).
-/

/-- 2^64, the modulus of Go 64-bit integer wrap-around. -/
abbrev i64Modulus : Int := 18446744073709551616

/-- 2^63, half of `i64Modulus`; int64 values lie in `[-i64Half, i64Half)`. -/
abbrev i64Half : Int := 9223372036854775808

/-- Result of a Go `int`/`int64` operation: the mathematical value wrapped into
`[-2^63, 2^63)`, two-complement style. -/
def wrap64 (z : Int) : Int := (z + i64Half) % i64Modulus - i64Half

/-- 2^53, the largest magnitude up to which every integer is exactly
representable as a float64. -/
abbrev f64Exact : Nat := 9007199254740992

/-- Number of low bits a nonnegative integer loses when rounded to float64:
the least `s` with `n < 2^(53+s)`.  The fuel `4096` covers every magnitude the
development evaluates (the float64 exponent overflow to Infinity, at
magnitudes beyond 2^1024, is not modelled). -/
def f64ShiftAux : Nat → Nat → Nat
  | 0, _ => 0
  | fuel+1, n => if n < f64Exact then 0 else f64ShiftAux fuel (n / 2) + 1

/-- See `f64ShiftAux`. -/
def f64Shift (n : Nat) : Nat := f64ShiftAux 4096 n

/-- Round a nonnegative integer to the nearest float64 value
(round-to-nearest, ties to even mantissa). -/
def f64RoundNat (n : Nat) : Nat :=
  let s := f64Shift n
  if s = 0 then n
  else
    let p := 2 ^ s
    let q := n / p
    let r := n % p
    let h := p / 2
    if r < h then q * p
    else if h < r then (q + 1) * p
    else if q % 2 = 0 then q * p else (q + 1) * p

/-- Round an integer to the nearest float64 value. -/
def f64Round (z : Int) : Int :=
  if 0 ≤ z then (f64RoundNat z.toNat : Int)
  else - (f64RoundNat (-z).toNat : Int)

/-- JavaScript `+` on integer-valued numbers: exact sum, rounded to float64. -/
def jsAdd (a b : Int) : Int := f64Round (a + b)

/-- JavaScript `*` on integer-valued numbers: exact product, rounded to
float64. -/
def jsMul (a b : Int) : Int := f64Round (a * b)

/-- The modulus `1000003` used by both compute functions. -/
abbrev MODC : Int := 1000003

/-- Per-item contribution of the Go `compute` inner loop body
(go-service/main.go, `compute`): `x := int64(v*multiplier + i + 1)`, then
`x = (x*x + 31) % mod` and `x = (x*x + 17) % mod`, with every Go integer
operation wrapping modulo 2^64 and `%` being the Go truncated remainder. -/
def goContrib (m i v : Int) : Int :=
  let x0 := wrap64 (wrap64 (wrap64 (v * m) + i) + 1)
  let x1 := Int.tmod (wrap64 (wrap64 (x0 * x0) + 31)) MODC
  Int.tmod (wrap64 (wrap64 (x1 * x1) + 17)) MODC

/-- One step of the Go `compute` accumulator: `acc = (acc + x) % mod`. -/
def goStep (m i acc v : Int) : Int :=
  Int.tmod (wrap64 (acc + goContrib m i v)) MODC

/-- The Go `compute` function (go-service/main.go lines 101-114): two nested
loops, iterations outside, items inside, over int64 wrap-around arithmetic.
A non-positive iteration count runs the outer loop zero times. -/
def goCompute (items : List Int) (iterations multiplier : Int) : Int :=
  (List.range iterations.toNat).foldl
    (fun acc i => items.foldl (fun a v => goStep multiplier (Int.ofNat i) a v) acc) 0

/-- Per-item contribution of the TS `compute` inner loop body
(ts-service/src/server.ts, `compute`): `BigInt(v * multiplier + i + 1)` where
the seed is computed in float64 arithmetic (each operation rounded), then the
two squaring rounds in exact BigInt arithmetic with truncated `%`. -/
def tsContrib (m i v : Int) : Int :=
  let x0 := jsAdd (jsAdd (jsMul v m) i) 1
  let x1 := Int.tmod (x0 * x0 + 31) MODC
  Int.tmod (x1 * x1 + 17) MODC

/-- One step of the TS `compute` accumulator: `acc = (acc + x) % mod` in
BigInt arithmetic. -/
def tsStep (m i acc v : Int) : Int :=
  Int.tmod (acc + tsContrib m i v) MODC

/-- The TS `compute` function (ts-service/src/server.ts lines 355-368). -/
def tsCompute (items : List Int) (iterations multiplier : Int) : Int :=
  (List.range iterations.toNat).foldl
    (fun acc i => items.foldl (fun a v => tsStep multiplier (Int.ofNat i) a v) acc) 0

-- sanity checks (concrete values validated against the source semantics)
example : goCompute [2] 3 5 = 93780 := by decide
example : tsCompute [2] 3 5 = 93780 := by decide
example : goCompute [12, 5, 8, 20, 3, 15] 4 3 = 71287 := by decide
example : goCompute [90000000000001] 1 100000 = 138923 := by decide
example : tsCompute [90000000000001] 1 100000 = 24960 := by decide

/-! ### Arithmetic helper lemmas -/

theorem wrap64_eq_self {z : Int} (h1 : -(9223372036854775808 : Int) ≤ z)
    (h2 : z < 9223372036854775808) :
    wrap64 z = z := by
  show (z + (9223372036854775808 : Int)) % (18446744073709551616 : Int) -
    (9223372036854775808 : Int) = z
  rw [Int.emod_eq_of_lt (by omega) (by omega)]
  omega

theorem f64ShiftAux_small {n : Nat} (h : n < f64Exact) :
    ∀ fuel, f64ShiftAux fuel n = 0 := by
  intro fuel
  cases fuel with
  | zero => rfl
  | succ k => simp [f64ShiftAux, h]

theorem f64RoundNat_small {n : Nat} (h : n < f64Exact) : f64RoundNat n = n := by
  unfold f64RoundNat f64Shift
  rw [f64ShiftAux_small h 4096]
  rfl

theorem f64Round_eq_self {z : Int} (h : z.natAbs < f64Exact) : f64Round z = z := by
  unfold f64Round
  by_cases hz : 0 ≤ z
  · rw [if_pos hz, f64RoundNat_small (by omega)]
    omega
  · rw [if_neg hz, f64RoundNat_small (by omega)]
    omega

/-- Truncated remainder by a positive modulus is greater than the negated
modulus (the lower-bound counterpart of `Int.tmod_lt_of_pos`). -/
theorem tmod_gt_neg (a : Int) {b : Int} (hb : 0 < b) : -b < Int.tmod a b := by
  rcases a with m | m
  · have h0 : 0 ≤ Int.tmod (Int.ofNat m) b := Int.tmod_nonneg b (Int.ofNat_nonneg m)
    omega
  · rcases b with n | n
    · have hn : 0 < n := by
        by_contra hc
        have hz : n = 0 := by omega
        subst hz
        simp at hb
      have hmod : Nat.succ m % n < n := Nat.mod_lt _ hn
      show -(Int.ofNat n) < Int.tmod (Int.negSucc m) (Int.ofNat n)
      simp only [Int.tmod]
      exact Int.neg_lt_neg (Int.ofNat_lt.mpr hmod)
    · exact absurd hb (by
        have hneg := Int.negSucc_lt_zero n
        omega)

theorem tmod_of_sq_plus_range (y c : Int) (hc : 0 ≤ c) :
    0 ≤ Int.tmod (y * y + c) MODC ∧ Int.tmod (y * y + c) MODC < MODC :=
  ⟨Int.tmod_nonneg MODC (by nlinarith [mul_self_nonneg y]),
   Int.tmod_lt_of_pos _ (by norm_num)⟩

theorem go_stage2_range (x1 : Int) (hlb : -MODC < x1) (hub : x1 < MODC) :
    0 ≤ Int.tmod (wrap64 (wrap64 (x1 * x1) + 17)) MODC ∧
      Int.tmod (wrap64 (wrap64 (x1 * x1) + 17)) MODC < MODC := by
  have hlb2 : -(1000003 : Int) < x1 := hlb
  have hub2 : x1 < (1000003 : Int) := hub
  have hsq0 : 0 ≤ x1 * x1 := mul_self_nonneg x1
  have hsq : x1 * x1 ≤ 1000002 * 1000002 := by nlinarith
  have w1 : wrap64 (x1 * x1) = x1 * x1 := wrap64_eq_self (by omega) (by omega)
  rw [w1]
  have w2 : wrap64 (x1 * x1 + 17) = x1 * x1 + 17 := wrap64_eq_self (by omega) (by omega)
  rw [w2]
  exact ⟨Int.tmod_nonneg MODC (by omega), Int.tmod_lt_of_pos _ (by norm_num)⟩

theorem goContrib_range (m i v : Int) :
    0 ≤ goContrib m i v ∧ goContrib m i v < MODC := by
  simp only [goContrib]
  exact go_stage2_range _ (tmod_gt_neg _ (by norm_num)) (Int.tmod_lt_of_pos _ (by norm_num))

theorem tsContrib_range (m i v : Int) :
    0 ≤ tsContrib m i v ∧ tsContrib m i v < MODC := by
  simp only [tsContrib]
  exact tmod_of_sq_plus_range _ 17 (by norm_num)

/-! ### Sum decompositions of the two compute loops -/

theorem goStep_decomp (m i acc v : Int) (h0 : 0 ≤ acc) (h1 : acc < MODC) :
    goStep m i acc v = (acc + goContrib m i v) % MODC := by
  obtain ⟨hc0, hc1⟩ := goContrib_range m i v
  have h1 : acc < (1000003 : Int) := h1
  have hc1 : goContrib m i v < (1000003 : Int) := hc1
  unfold goStep
  rw [wrap64_eq_self (by omega) (by omega),
    Int.tmod_eq_emod (by omega) (by norm_num)]

theorem tsStep_decomp (m i acc v : Int) (h0 : 0 ≤ acc) :
    tsStep m i acc v = (acc + tsContrib m i v) % MODC := by
  obtain ⟨hc0, _⟩ := tsContrib_range m i v
  unfold tsStep
  rw [Int.tmod_eq_emod (by omega) (by norm_num)]

theorem goInner_eq_sum (m i : Int) :
    ∀ (items : List Int) (acc : Int), 0 ≤ acc → acc < MODC →
      items.foldl (fun a v => goStep m i a v) acc =
        (acc + (items.map (goContrib m i)).sum) % MODC := by
  intro items
  induction items with
  | nil =>
    intro acc h0 h1
    simp [Int.emod_eq_of_lt h0 h1]
  | cons v vs ih =>
    intro acc h0 h1
    have hstep := goStep_decomp m i acc v h0 h1
    have hnext0 : 0 ≤ goStep m i acc v := by
      rw [hstep]; exact Int.emod_nonneg _ (by norm_num)
    have hnext1 : goStep m i acc v < MODC := by
      rw [hstep]; exact Int.emod_lt_of_pos _ (by norm_num)
    calc (v :: vs).foldl (fun a v => goStep m i a v) acc
        = vs.foldl (fun a v => goStep m i a v) (goStep m i acc v) := rfl
      _ = (goStep m i acc v + (vs.map (goContrib m i)).sum) % MODC := ih _ hnext0 hnext1
      _ = ((acc + goContrib m i v) % MODC + (vs.map (goContrib m i)).sum) % MODC := by
            rw [hstep]
      _ = (acc + goContrib m i v + (vs.map (goContrib m i)).sum) % MODC := by
            rw [Int.emod_add_emod]
      _ = (acc + ((v :: vs).map (goContrib m i)).sum) % MODC := by
            simp [add_assoc]

theorem tsInner_eq_sum (m i : Int) :
    ∀ (items : List Int) (acc : Int), 0 ≤ acc → acc < MODC →
      items.foldl (fun a v => tsStep m i a v) acc =
        (acc + (items.map (tsContrib m i)).sum) % MODC := by
  intro items
  induction items with
  | nil =>
    intro acc h0 h1
    simp [Int.emod_eq_of_lt h0 h1]
  | cons v vs ih =>
    intro acc h0 h1
    have hstep := tsStep_decomp m i acc v h0
    have hnext0 : 0 ≤ tsStep m i acc v := by
      rw [hstep]; exact Int.emod_nonneg _ (by norm_num)
    have hnext1 : tsStep m i acc v < MODC := by
      rw [hstep]; exact Int.emod_lt_of_pos _ (by norm_num)
    calc (v :: vs).foldl (fun a v => tsStep m i a v) acc
        = vs.foldl (fun a v => tsStep m i a v) (tsStep m i acc v) := rfl
      _ = (tsStep m i acc v + (vs.map (tsContrib m i)).sum) % MODC := ih _ hnext0 hnext1
      _ = ((acc + tsContrib m i v) % MODC + (vs.map (tsContrib m i)).sum) % MODC := by
            rw [hstep]
      _ = (acc + tsContrib m i v + (vs.map (tsContrib m i)).sum) % MODC := by
            rw [Int.emod_add_emod]
      _ = (acc + ((v :: vs).map (tsContrib m i)).sum) % MODC := by
            simp [add_assoc]

/-- Total contribution of iteration index `i` over an item list. -/
def goIterSum (items : List Int) (m : Int) (i : Nat) : Int :=
  (items.map (goContrib m (Int.ofNat i))).sum

/-- Total contribution of iteration index `i` over an item list (TS side). -/
def tsIterSum (items : List Int) (m : Int) (i : Nat) : Int :=
  (items.map (tsContrib m (Int.ofNat i))).sum

theorem goOuter_eq_sum (items : List Int) (m : Int) :
    ∀ (idx : List Nat) (acc : Int), 0 ≤ acc → acc < MODC →
      idx.foldl (fun acc i => items.foldl (fun a v => goStep m (Int.ofNat i) a v) acc) acc =
        (acc + (idx.map (goIterSum items m)).sum) % MODC := by
  intro idx
  induction idx with
  | nil =>
    intro acc h0 h1
    simp [Int.emod_eq_of_lt h0 h1]
  | cons i is ih =>
    intro acc h0 h1
    have hinner := goInner_eq_sum m (Int.ofNat i) items acc h0 h1
    have hnext0 : 0 ≤ items.foldl (fun a v => goStep m (Int.ofNat i) a v) acc := by
      rw [hinner]; exact Int.emod_nonneg _ (by norm_num)
    have hnext1 : items.foldl (fun a v => goStep m (Int.ofNat i) a v) acc < MODC := by
      rw [hinner]; exact Int.emod_lt_of_pos _ (by norm_num)
    calc (i :: is).foldl (fun acc i => items.foldl (fun a v => goStep m (Int.ofNat i) a v) acc) acc
        = is.foldl (fun acc i => items.foldl (fun a v => goStep m (Int.ofNat i) a v) acc)
            (items.foldl (fun a v => goStep m (Int.ofNat i) a v) acc) := rfl
      _ = (items.foldl (fun a v => goStep m (Int.ofNat i) a v) acc +
            (is.map (goIterSum items m)).sum) % MODC := ih _ hnext0 hnext1
      _ = ((acc + goIterSum items m i) % MODC + (is.map (goIterSum items m)).sum) % MODC := by
            rw [hinner]; rfl
      _ = (acc + goIterSum items m i + (is.map (goIterSum items m)).sum) % MODC := by
            rw [Int.emod_add_emod]
      _ = (acc + ((i :: is).map (goIterSum items m)).sum) % MODC := by
            simp [add_assoc]

theorem tsOuter_eq_sum (items : List Int) (m : Int) :
    ∀ (idx : List Nat) (acc : Int), 0 ≤ acc → acc < MODC →
      idx.foldl (fun acc i => items.foldl (fun a v => tsStep m (Int.ofNat i) a v) acc) acc =
        (acc + (idx.map (tsIterSum items m)).sum) % MODC := by
  intro idx
  induction idx with
  | nil =>
    intro acc h0 h1
    simp [Int.emod_eq_of_lt h0 h1]
  | cons i is ih =>
    intro acc h0 h1
    have hinner := tsInner_eq_sum m (Int.ofNat i) items acc h0 h1
    have hnext0 : 0 ≤ items.foldl (fun a v => tsStep m (Int.ofNat i) a v) acc := by
      rw [hinner]; exact Int.emod_nonneg _ (by norm_num)
    have hnext1 : items.foldl (fun a v => tsStep m (Int.ofNat i) a v) acc < MODC := by
      rw [hinner]; exact Int.emod_lt_of_pos _ (by norm_num)
    calc (i :: is).foldl (fun acc i => items.foldl (fun a v => tsStep m (Int.ofNat i) a v) acc) acc
        = is.foldl (fun acc i => items.foldl (fun a v => tsStep m (Int.ofNat i) a v) acc)
            (items.foldl (fun a v => tsStep m (Int.ofNat i) a v) acc) := rfl
      _ = (items.foldl (fun a v => tsStep m (Int.ofNat i) a v) acc +
            (is.map (tsIterSum items m)).sum) % MODC := ih _ hnext0 hnext1
      _ = ((acc + tsIterSum items m i) % MODC + (is.map (tsIterSum items m)).sum) % MODC := by
            rw [hinner]; rfl
      _ = (acc + tsIterSum items m i + (is.map (tsIterSum items m)).sum) % MODC := by
            rw [Int.emod_add_emod]
      _ = (acc + ((i :: is).map (tsIterSum items m)).sum) % MODC := by
            simp [add_assoc]

theorem goCompute_eq_sum (items : List Int) (n m : Int) :
    goCompute items n m =
      ((List.range n.toNat).map (goIterSum items m)).sum % MODC := by
  have h := goOuter_eq_sum items m (List.range n.toNat) 0 (by norm_num) (by norm_num)
  unfold goCompute
  rw [h, zero_add]

theorem tsCompute_eq_sum (items : List Int) (n m : Int) :
    tsCompute items n m =
      ((List.range n.toNat).map (tsIterSum items m)).sum % MODC := by
  have h := tsOuter_eq_sum items m (List.range n.toNat) 0 (by norm_num) (by norm_num)
  unfold tsCompute
  rw [h, zero_add]

theorem goCompute_range (items : List Int) (n m : Int) :
    0 ≤ goCompute items n m ∧ goCompute items n m < MODC := by
  rw [goCompute_eq_sum]
  exact ⟨Int.emod_nonneg _ (by norm_num), Int.emod_lt_of_pos _ (by norm_num)⟩

/-- In the range where the seed arithmetic is exact on both sides (no float64
rounding in TS, no int64 overflow in Go), the per-item contributions of the
two compute implementations coincide. -/
theorem contrib_eq {v m i it : Int} (hp0 : 0 ≤ v * m)
    (hpB : v * m + it ≤ 3037000000) (hi0 : 0 ≤ i) (hi : i < it) :
    goContrib m i v = tsContrib m i v := by
  have hit1 : 1 ≤ it := by omega
  simp only [goContrib, tsContrib, jsMul, jsAdd]
  rw [f64Round_eq_self (show (v * m).natAbs < 9007199254740992 by omega),
    wrap64_eq_self (show -(9223372036854775808 : Int) ≤ v * m by omega) (by omega)]
  rw [f64Round_eq_self (show (v * m + i).natAbs < 9007199254740992 by omega),
    wrap64_eq_self (show -(9223372036854775808 : Int) ≤ v * m + i by omega) (by omega)]
  rw [f64Round_eq_self (show (v * m + i + 1).natAbs < 9007199254740992 by omega),
    wrap64_eq_self (show -(9223372036854775808 : Int) ≤ v * m + i + 1 by omega) (by omega)]
  have hs0 : 0 ≤ v * m + i + 1 := by omega
  have hsB : v * m + i + 1 ≤ 3037000000 := by omega
  have hss : (v * m + i + 1) * (v * m + i + 1) ≤ 9223369000000000000 := by nlinarith
  rw [wrap64_eq_self (show -(9223372036854775808 : Int) ≤
        (v * m + i + 1) * (v * m + i + 1) by nlinarith) (by omega)]
  rw [wrap64_eq_self (show -(9223372036854775808 : Int) ≤
        (v * m + i + 1) * (v * m + i + 1) + 31 by nlinarith) (by omega)]
  have hy0 : 0 ≤ Int.tmod ((v * m + i + 1) * (v * m + i + 1) + 31) MODC :=
    Int.tmod_nonneg MODC (by nlinarith)
  have hy1 : Int.tmod ((v * m + i + 1) * (v * m + i + 1) + 31) MODC < MODC :=
    Int.tmod_lt_of_pos _ (by norm_num)
  set y := Int.tmod ((v * m + i + 1) * (v * m + i + 1) + 31) MODC with hy
  have hy1 : y < (1000003 : Int) := hy1
  have hyy : y * y ≤ 1000002 * 1000002 := by nlinarith
  rw [wrap64_eq_self (show -(9223372036854775808 : Int) ≤ y * y by nlinarith) (by omega)]
  rw [wrap64_eq_self (show -(9223372036854775808 : Int) ≤ y * y + 17 by nlinarith) (by omega)]

/-! ### Claims C1, C9, C10 about the compute functions -/

/-- C1 (counterexample): for the valid load-test request with
`items = [90000000000001]`, `iterations = 1`, `multiplier = 100000` the Go
compute and the TS compute return different results (138923 versus 24960):
the TS seed `v * multiplier + i + 1` is computed in float64 and rounds,
while the Go int64 computation is exact. -/
theorem go_ts_compute_disagree_large_item :
    goCompute [90000000000001] 1 100000 ≠ tsCompute [90000000000001] 1 100000 := by
  decide

/-- C1 (amended): for every valid load-test request (iterations and
multiplier in `[1, 100000]`) in which additionally every item `v` satisfies
`0 ≤ v * multiplier` and `v * multiplier + iterations ≤ 3037000000` (so the
seed arithmetic neither loses float64 precision in TS nor overflows int64 in
Go), the Go compute and the TS compute return the same numeric result. -/
theorem go_ts_compute_agree_bounded :
    ∀ (items : List Int) (iterations multiplier : Int),
      1 ≤ iterations → iterations ≤ 100000 →
      1 ≤ multiplier → multiplier ≤ 100000 →
      (∀ v ∈ items, 0 ≤ v * multiplier ∧ v * multiplier + iterations ≤ 3037000000) →
      goCompute items iterations multiplier = tsCompute items iterations multiplier := by
  intro items it m h1 h2 h3 h4 hb
  rw [goCompute_eq_sum, tsCompute_eq_sum]
  congr 1
  apply congrArg List.sum
  apply List.map_congr_left
  intro i hi
  unfold goIterSum tsIterSum
  apply congrArg List.sum
  apply List.map_congr_left
  intro v hv
  have hlt : i < it.toNat := List.mem_range.mp hi
  have hcast : Int.ofNat i < it := by
    have hc : (i : Int) < ((it.toNat : Nat) : Int) := Int.ofNat_lt.mpr hlt
    rwa [Int.toNat_of_nonneg (by omega : (0 : Int) ≤ it)] at hc
  exact contrib_eq (hb v hv).1 (hb v hv).2 (Int.ofNat_nonneg i) hcast

/-- C1 (witness): a concrete in-bounds request on which the amended
equivalence theorem applies. -/
theorem go_ts_compute_agree_bounded_witness :
    1 ≤ (3 : Int) ∧ goCompute [2] 3 5 = tsCompute [2] 3 5 :=
  ⟨by norm_num,
   go_ts_compute_agree_bounded [2] 3 5 (by norm_num) (by norm_num) (by norm_num)
     (by norm_num) (by decide)⟩

/-- C9: whenever every seed value `v * multiplier + i + 1` is nonnegative and
small enough that its square does not overflow int64, the Go compute result
lies in `[0, 1000003)`.  (The embedding proves the range bound holds for the
wrapped semantics, so in particular under these hypotheses.) -/
theorem go_compute_result_range :
    ∀ (items : List Int) (iterations multiplier : Int),
      (∀ v ∈ items, ∀ i : Int, 0 ≤ i → i < iterations →
        0 ≤ v * multiplier + i + 1 ∧
          (v * multiplier + i + 1) * (v * multiplier + i + 1) + 31 < 9223372036854775808) →
      0 ≤ goCompute items iterations multiplier ∧
        goCompute items iterations multiplier < 1000003 :=
  fun items it m _ => goCompute_range items it m

/-- C9 (witness): the hypotheses hold for `items = [1]`, `iterations = 1`,
`multiplier = 1`, and the result is in range. -/
theorem go_compute_result_range_witness :
    0 ≤ goCompute [1] 1 1 ∧ goCompute [1] 1 1 < 1000003 :=
  go_compute_result_range [1] 1 1 (by
    intro v hv i hi0 hi1
    simp only [List.mem_singleton] at hv
    subst hv
    have hz : i = 0 := by omega
    subst hz
    norm_num)

/-- C10: both compute implementations are additive under list concatenation
modulo 1000003, for every item list, every nonnegative iteration count and
every multiplier (the Go one under the full int64 wrap semantics, the TS one
under the float64-seed semantics), and are consequently invariant under
permutation of the items list: each per-(item, iteration) contribution is
independent of the position of the item in the list, and the accumulator fold
is a modular sum of those contributions. -/
theorem compute_concat_additive :
    ((∀ (A B : List Int) (n m : Int), 0 ≤ n →
      goCompute (A ++ B) n m = (goCompute A n m + goCompute B n m) % MODC)
    ∧ (∀ (A B : List Int) (n m : Int), A.Perm B →
      goCompute A n m = goCompute B n m))
    ∧ ((∀ (A B : List Int) (n m : Int), 0 ≤ n →
      tsCompute (A ++ B) n m = (tsCompute A n m + tsCompute B n m) % MODC)
    ∧ (∀ (A B : List Int) (n m : Int), A.Perm B →
      tsCompute A n m = tsCompute B n m)) := by
  refine ⟨⟨?_, ?_⟩, ?_, ?_⟩
  · intro A B n m _
    rw [goCompute_eq_sum, goCompute_eq_sum, goCompute_eq_sum]
    have hmap : (List.range n.toNat).map (goIterSum (A ++ B) m) =
        (List.range n.toNat).map (fun i => goIterSum A m i + goIterSum B m i) :=
      List.map_congr_left (fun i _ => by
        unfold goIterSum
        rw [List.map_append, List.sum_append])
    rw [hmap, List.sum_map_add, ← Int.add_emod]
  · intro A B n m hp
    rw [goCompute_eq_sum, goCompute_eq_sum]
    have hiter : ∀ i ∈ List.range n.toNat, goIterSum A m i = goIterSum B m i :=
      fun i _ => List.Perm.sum_eq (hp.map (goContrib m (Int.ofNat i)))
    rw [List.map_congr_left hiter]
  · intro A B n m _
    rw [tsCompute_eq_sum, tsCompute_eq_sum, tsCompute_eq_sum]
    have hmap : (List.range n.toNat).map (tsIterSum (A ++ B) m) =
        (List.range n.toNat).map (fun i => tsIterSum A m i + tsIterSum B m i) :=
      List.map_congr_left (fun i _ => by
        unfold tsIterSum
        rw [List.map_append, List.sum_append])
    rw [hmap, List.sum_map_add, ← Int.add_emod]
  · intro A B n m hp
    rw [tsCompute_eq_sum, tsCompute_eq_sum]
    have hiter : ∀ i ∈ List.range n.toNat, tsIterSum A m i = tsIterSum B m i :=
      fun i _ => List.Perm.sum_eq (hp.map (tsContrib m (Int.ofNat i)))
    rw [List.map_congr_left hiter]

/-- C10 (witness): concrete instances of all four conjuncts. -/
theorem compute_concat_additive_witness :
    ((0 ≤ (1 : Int) ∧
      goCompute ([1] ++ [2]) 1 1 = (goCompute [1] 1 1 + goCompute [2] 1 1) % MODC) ∧
      goCompute [1, 2] 1 1 = goCompute [2, 1] 1 1) ∧
    (tsCompute ([1] ++ [2]) 1 1 = (tsCompute [1] 1 1 + tsCompute [2] 1 1) % MODC ∧
      tsCompute [1, 2] 1 1 = tsCompute [2, 1] 1 1) :=
  ⟨⟨⟨by norm_num, compute_concat_additive.1.1 [1] [2] 1 1 (by norm_num)⟩,
    compute_concat_additive.1.2 [1, 2] [2, 1] 1 1 (by decide)⟩,
   compute_concat_additive.2.1 [1] [2] 1 1 (by norm_num),
   compute_concat_additive.2.2 [1, 2] [2, 1] 1 1 (by decide)⟩

/-! ### HTTP handler embeddings (load-test validation, metrics counters) -/

/-- A decoded load-test request body: the `items`, `iterations` and
`multiplier` fields (both services; integer inputs per the request contract). -/
structure LoadTestReq where
  items : List Int
  iterations : Int
  multiplier : Int
deriving DecidableEq

/-- Status code plus optional computed result of a load-test response.
`result = none` on every error path (http.Error / reply without result). -/
structure HandlerResult where
  status : Nat
  result : Option Int
deriving DecidableEq

/-- The Go `loadTestHandler` (go-service/main.go lines 133-178): increments
the request counter (a `uint64`, wrapping modulo 2^64), rejects non-POST
methods with 405, a failed JSON decode with 400, out-of-range iterations,
multiplier or items length with 400 (incrementing the error counter on every
failure path), and otherwise returns 200 with the compute result.  A body of
`none` stands for a request whose JSON decoding failed. -/
def goLoadTestHandler (method : String) (body : Option LoadTestReq)
    (c : Nat × Nat) : HandlerResult × (Nat × Nat) :=
  let r1 := (c.1 + 1) % 18446744073709551616
  if method ≠ "POST" then
    (⟨405, none⟩, (r1, (c.2 + 1) % 18446744073709551616))
  else
    match body with
    | none => (⟨400, none⟩, (r1, (c.2 + 1) % 18446744073709551616))
    | some r =>
      if r.iterations ≤ 0 ∨ 100000 < r.iterations then
        (⟨400, none⟩, (r1, (c.2 + 1) % 18446744073709551616))
      else if r.multiplier ≤ 0 ∨ 100000 < r.multiplier then
        (⟨400, none⟩, (r1, (c.2 + 1) % 18446744073709551616))
      else if r.items.length = 0 ∨ 100000 < r.items.length then
        (⟨400, none⟩, (r1, (c.2 + 1) % 18446744073709551616))
      else
        (⟨200, some (goCompute r.items r.iterations r.multiplier)⟩, (r1, c.2))

/-- The TS `POST /v1/auth/load-test` handler (ts-service/src/server.ts lines
397-444), status and result only (the `metrics` counters are JS numbers and
are not needed by any claim about this service).  A body of `none` stands for
a request body failing the shape check (`!body || !Array.isArray(body.items)
|| typeof body.iterations !== "number" || typeof body.multiplier !==
"number"`); on the integer item domain of the claims the
`items.every(Number.isInteger)` test is identically true. -/
def tsLoadTestHandler (body : Option LoadTestReq) : HandlerResult :=
  match body with
  | none => ⟨400, none⟩
  | some r =>
    if r.iterations ≤ 0 ∨ 100000 < r.iterations then ⟨400, none⟩
    else if r.multiplier ≤ 0 ∨ 100000 < r.multiplier then ⟨400, none⟩
    else if r.items.length = 0 ∨ 100000 < r.items.length then ⟨400, none⟩
    else ⟨200, some (tsCompute r.items r.iterations r.multiplier)⟩

-- sanity checks
example : (goLoadTestHandler "POST" (some ⟨[1], 1, 1⟩) (0, 0)).1.status = 200 := by decide
example : (goLoadTestHandler "POST" (some ⟨[1], 0, 1⟩) (0, 0)).1.status = 400 := by decide
example : (goLoadTestHandler "GET" (some ⟨[1], 1, 1⟩) (0, 0)).1.status = 405 := by decide
example : (tsLoadTestHandler (some ⟨[], 1, 1⟩)).status = 400 := by decide

/-- C2: for every POST load-test request whose body decodes to an
integer-array items field, an iterations number and a multiplier number, each
service responds 4xx if and only if iterations or multiplier is outside
`[1, 100000]` or the items length is outside `[1, 100000]`; and a 4xx
response carries no computation result. -/
theorem loadtest_validation_iff :
    ∀ (r : LoadTestReq) (c : Nat × Nat),
      (((400 ≤ (goLoadTestHandler "POST" (some r) c).1.status ∧
          (goLoadTestHandler "POST" (some r) c).1.status < 500) ↔
        (r.iterations < 1 ∨ 100000 < r.iterations ∨
         r.multiplier < 1 ∨ 100000 < r.multiplier ∨
         r.items.length < 1 ∨ 100000 < r.items.length)) ∧
       ((400 ≤ (goLoadTestHandler "POST" (some r) c).1.status ∧
          (goLoadTestHandler "POST" (some r) c).1.status < 500) →
        (goLoadTestHandler "POST" (some r) c).1.result = none)) ∧
      (((400 ≤ (tsLoadTestHandler (some r)).status ∧
          (tsLoadTestHandler (some r)).status < 500) ↔
        (r.iterations < 1 ∨ 100000 < r.iterations ∨
         r.multiplier < 1 ∨ 100000 < r.multiplier ∨
         r.items.length < 1 ∨ 100000 < r.items.length)) ∧
       ((400 ≤ (tsLoadTestHandler (some r)).status ∧
          (tsLoadTestHandler (some r)).status < 500) →
        (tsLoadTestHandler (some r)).result = none)) := by
  intro r c
  unfold goLoadTestHandler tsLoadTestHandler
  rw [if_neg (show ¬("POST" : String) ≠ "POST" by norm_num)]
  constructor
  · dsimp only
    split_ifs with h1 h2 h3
    · exact ⟨by dsimp only; omega, fun _ => rfl⟩
    · exact ⟨by dsimp only; omega, fun _ => rfl⟩
    · exact ⟨by dsimp only; omega, fun _ => rfl⟩
    · exact ⟨by dsimp only; omega, fun h => absurd h (by dsimp only; omega)⟩
  · dsimp only
    split_ifs with h1 h2 h3
    · exact ⟨by dsimp only; omega, fun _ => rfl⟩
    · exact ⟨by dsimp only; omega, fun _ => rfl⟩
    · exact ⟨by dsimp only; omega, fun _ => rfl⟩
    · exact ⟨by dsimp only; omega, fun h => absurd h (by dsimp only; omega)⟩

/-- C2 (witness): a concrete POST request with iterations = 0 is rejected 4xx
with no result by the Go handler. -/
theorem loadtest_validation_iff_witness :
    (400 ≤ (goLoadTestHandler "POST" (some ⟨[1], 0, 1⟩) (0, 0)).1.status ∧
      (goLoadTestHandler "POST" (some ⟨[1], 0, 1⟩) (0, 0)).1.status < 500) ∧
      (goLoadTestHandler "POST" (some ⟨[1], 0, 1⟩) (0, 0)).1.result = none := by
  have h := (loadtest_validation_iff ⟨[1], 0, 1⟩ (0, 0)).1
  exact ⟨h.1.mpr (Or.inl (by decide)), h.2 (h.1.mpr (Or.inl (by decide)))⟩

/-! ### Database read endpoint (503 when no database is configured) -/

/-- The Go `dbDataHandler` (go-service/main.go lines 180-222), status code
only: non-GET gives 405; a nil `db` gives 503 before any query runs; with a
database the four fetches run in order, the first error giving 500, and
success giving 200.  The four query outcomes are passed in as parameters so
that the 503 path is visibly independent of them. -/
def goDbDataHandler (method : String) (db : Option Unit)
    (qUsers qProducts qTxns qItems : Except String Unit) : Nat :=
  if method ≠ "GET" then 405
  else
    match db with
    | none => 503
    | some _ =>
      match qUsers with
      | .error _ => 500
      | .ok _ =>
        match qProducts with
        | .error _ => 500
        | .ok _ =>
          match qTxns with
          | .error _ => 500
          | .ok _ =>
            match qItems with
            | .error _ => 500
            | .ok _ => 200

/-- The TS `GET /api/v1/data/all` handler (ts-service/src/server.ts lines
446-473), status code only: a null `dbClient` gives 503; otherwise the
`Promise.all` of the four fetches either fails (500) or succeeds (200). -/
def tsDbDataHandler (db : Option Unit) (qAll : Except String Unit) : Nat :=
  match db with
  | none => 503
  | some _ =>
    match qAll with
    | .error _ => 500
    | .ok _ => 200

/-- C6: a GET request to the data endpoint returns 503 exactly when no
database is configured, in both services, independently of every query
outcome (so no database is queried on that path); 503 is distinct from the
validation-failure code 400 and the unexpected-failure code 500. -/
theorem db_data_503_iff_no_db :
    (∀ (db : Option Unit) (qU qP qT qI : Except String Unit),
      goDbDataHandler "GET" db qU qP qT qI = 503 ↔ db = none) ∧
    (∀ (db : Option Unit) (q : Except String Unit),
      tsDbDataHandler db q = 503 ↔ db = none) ∧
    (503 : Nat) ≠ 400 ∧ (503 : Nat) ≠ 500 := by
  refine ⟨?_, ?_, by norm_num, by norm_num⟩
  · intro db qU qP qT qI
    cases db with
    | none => simp [goDbDataHandler]
    | some u =>
      cases qU <;> cases qP <;> cases qT <;> cases qI <;> simp [goDbDataHandler]
  · intro db q
    cases db with
    | none => simp [tsDbDataHandler]
    | some u => cases q <;> simp [tsDbDataHandler]

/-- C6 (witness): with no database configured, a GET request yields 503
whatever the (never-executed) query outcomes would have been. -/
theorem db_data_503_iff_no_db_witness :
    goDbDataHandler "GET" none (.error "boom") (.ok ()) (.ok ()) (.ok ()) = 503 ∧
      tsDbDataHandler none (.error "boom") = 503 :=
  ⟨(db_data_503_iff_no_db.1 none (.error "boom") (.ok ()) (.ok ()) (.ok ())).mpr rfl,
   (db_data_503_iff_no_db.2.1 none (.error "boom")).mpr rfl⟩

/-! ### Metrics counters of the Go service -/

/-- One incoming request to the Go service, by handler.  The load-test event
carries the method and decoded body; the other handlers read no request data
that affects the counters. -/
inductive GoEvent
  | loadTest (method : String) (body : Option LoadTestReq)
  | health
  | metricsGet
  | dbData
deriving DecidableEq

/-- Effect of one request on the `(reqCount, errCount)` pair of `uint64`
counters: only `loadTestHandler` touches them (main.go lines 133-178);
`healthHandler`, `metricsHandler` and `dbDataHandler` leave both unchanged. -/
def goStepMetrics (c : Nat × Nat) : GoEvent → Nat × Nat
  | .loadTest method body => (goLoadTestHandler method body c).2
  | .health => c
  | .metricsGet => c
  | .dbData => c

/-- Counters after a sequence of requests, starting from `c`. -/
def goRunMetrics (evs : List GoEvent) (c : Nat × Nat) : Nat × Nat :=
  evs.foldl goStepMetrics c

/-- Whether an event is a load-test call. -/
def isLoadTest : GoEvent → Bool
  | .loadTest _ _ => true
  | _ => false

/-- A valid load-test event: passes decoding and validation, so it does not
increment the error counter. -/
def goodLoadTest : GoEvent := .loadTest "POST" (some ⟨[1], 1, 1⟩)

/-- A load-test event whose JSON decoding failed: increments the error
counter. -/
def badLoadTest : GoEvent := .loadTest "POST" none

theorem goStepMetrics_goodLoadTest (c : Nat × Nat) :
    goStepMetrics c goodLoadTest = ((c.1 + 1) % 18446744073709551616, c.2) := by
  rfl

theorem goRunMetrics_replicate_good (n : Nat) :
    ∀ (r e : Nat), r < 18446744073709551616 →
      goRunMetrics (List.replicate n goodLoadTest) (r, e) =
        ((r + n) % 18446744073709551616, e) := by
  induction n with
  | zero =>
    intro r e hr
    simp [goRunMetrics, Nat.mod_eq_of_lt hr]
  | succ k ih =>
    intro r e hr
    have hstep : goRunMetrics (List.replicate (k + 1) goodLoadTest) (r, e) =
        goRunMetrics (List.replicate k goodLoadTest)
          ((r + 1) % 18446744073709551616, e) := by
      rw [List.replicate_succ]
      rfl
    rw [hstep, ih _ e (Nat.mod_lt _ (by norm_num))]
    rw [Nat.mod_add_mod]
    congr 1
    omega

/-- C8 (counterexample): the counters are `uint64` and wrap modulo 2^64.
After one decoding-failure load-test call followed by 2^64 - 1 valid
load-test calls, the request counter has wrapped to 0 while the error
counter is 1, so the reported error count exceeds the reported request
count. -/
theorem metrics_error_exceeds_requests_at_wrap :
    ¬ ((goRunMetrics (badLoadTest ::
          List.replicate (18446744073709551616 - 1) goodLoadTest) (0, 0)).2 ≤
        (goRunMetrics (badLoadTest ::
          List.replicate (18446744073709551616 - 1) goodLoadTest) (0, 0)).1) := by
  have hstep : goStepMetrics (0, 0) badLoadTest = (1, 1) := by decide
  have hbad : goRunMetrics (badLoadTest ::
      List.replicate (18446744073709551616 - 1) goodLoadTest) (0, 0) =
      goRunMetrics (List.replicate (18446744073709551616 - 1) goodLoadTest) (1, 1) := by
    unfold goRunMetrics
    rw [List.foldl_cons, hstep]
  rw [hbad, goRunMetrics_replicate_good _ 1 1 (by norm_num)]
  norm_num

/-- Each load-test call sets the request counter to its wrapped successor and
either leaves the error counter unchanged or sets it to its wrapped
successor. -/
theorem goStepMetrics_loadTest_shape (c : Nat × Nat) (method : String)
    (body : Option LoadTestReq) :
    (goStepMetrics c (.loadTest method body)).1 = (c.1 + 1) % 18446744073709551616 ∧
      ((goStepMetrics c (.loadTest method body)).2 = c.2 ∨
       (goStepMetrics c (.loadTest method body)).2 =
         (c.2 + 1) % 18446744073709551616) := by
  have hred : goStepMetrics c (.loadTest method body) = (goLoadTestHandler method body c).2 :=
    rfl
  rw [hred]
  unfold goLoadTestHandler
  dsimp only
  split_ifs with h1
  · exact ⟨rfl, Or.inr rfl⟩
  · cases body with
    | none => exact ⟨rfl, Or.inr rfl⟩
    | some r =>
      dsimp only
      split_ifs with h2 h3 h4
      · exact ⟨rfl, Or.inr rfl⟩
      · exact ⟨rfl, Or.inr rfl⟩
      · exact ⟨rfl, Or.inr rfl⟩
      · exact ⟨rfl, Or.inl rfl⟩

theorem goRunMetrics_invariant :
    ∀ (evs : List GoEvent) (r e : Nat), e ≤ r →
      r + (evs.countP isLoadTest) < 18446744073709551616 →
      (goRunMetrics evs (r, e)).1 = r + evs.countP isLoadTest ∧
        (goRunMetrics evs (r, e)).2 ≤ (goRunMetrics evs (r, e)).1 := by
  intro evs
  induction evs with
  | nil =>
    intro r e he _
    exact ⟨by simp [goRunMetrics], by simpa [goRunMetrics] using he⟩
  | cons ev rest ih =>
    intro r e he hcount
    cases ev with
    | loadTest method body =>
      have hcnt : (GoEvent.loadTest method body :: rest).countP isLoadTest =
          rest.countP isLoadTest + 1 := by
        simp [List.countP_cons, isLoadTest]
      rw [hcnt] at hcount ⊢
      obtain ⟨hreq, herr⟩ := goStepMetrics_loadTest_shape (r, e) method body
      have hr1 : (goStepMetrics (r, e) (.loadTest method body)).1 = r + 1 := by
        rw [hreq]
        exact Nat.mod_eq_of_lt (by omega)
      have he1 : (goStepMetrics (r, e) (.loadTest method body)).2 ≤ e + 1 := by
        rcases herr with h | h
        · omega
        · rw [h]
          exact le_trans (Nat.mod_le _ _) (by omega)
      have hrun : goRunMetrics (GoEvent.loadTest method body :: rest) (r, e) =
          goRunMetrics rest (goStepMetrics (r, e) (.loadTest method body)) := rfl
      rw [hrun]
      obtain ⟨hfst, hsnd⟩ :=
        ih (goStepMetrics (r, e) (.loadTest method body)).1
          (goStepMetrics (r, e) (.loadTest method body)).2
          (by omega) (by omega)
      constructor
      · rw [hfst, hr1]
        omega
      · exact hsnd
    | health =>
      have hcnt : (GoEvent.health :: rest).countP isLoadTest =
          rest.countP isLoadTest := by
        simp [List.countP_cons, isLoadTest]
      rw [hcnt] at hcount ⊢
      exact ih r e he hcount
    | metricsGet =>
      have hcnt : (GoEvent.metricsGet :: rest).countP isLoadTest =
          rest.countP isLoadTest := by
        simp [List.countP_cons, isLoadTest]
      rw [hcnt] at hcount ⊢
      exact ih r e he hcount
    | dbData =>
      have hcnt : (GoEvent.dbData :: rest).countP isLoadTest =
          rest.countP isLoadTest := by
        simp [List.countP_cons, isLoadTest]
      rw [hcnt] at hcount ⊢
      exact ih r e he hcount

/-- C8 (amended): starting from zero counters, after any sequence of
load-test, health, metrics and data requests containing fewer than 2^64
load-test calls (so the uint64 request counter cannot wrap), the error count
never exceeds the request count; each load-test call sets the request counter
to its wrapped successor and the error counter to itself or its wrapped
successor, and no other handler modifies either counter. -/
theorem metrics_errors_le_requests :
    (∀ evs : List GoEvent, evs.countP isLoadTest < 18446744073709551616 →
      (goRunMetrics evs (0, 0)).2 ≤ (goRunMetrics evs (0, 0)).1) ∧
    (∀ (c : Nat × Nat) (method : String) (body : Option LoadTestReq),
      (goStepMetrics c (.loadTest method body)).1 = (c.1 + 1) % 18446744073709551616 ∧
        ((goStepMetrics c (.loadTest method body)).2 = c.2 ∨
         (goStepMetrics c (.loadTest method body)).2 = (c.2 + 1) % 18446744073709551616)) ∧
    (∀ c : Nat × Nat, goStepMetrics c .health = c ∧
      goStepMetrics c .metricsGet = c ∧ goStepMetrics c .dbData = c) :=
  ⟨fun evs h => (goRunMetrics_invariant evs 0 0 (le_refl 0) (by omega)).2,
   goStepMetrics_loadTest_shape,
   fun c => ⟨rfl, rfl, rfl⟩⟩

/-- C8 (witness): a concrete short sequence with one good and one bad
load-test call plus reads; the error count stays at or below the request
count. -/
theorem metrics_errors_le_requests_witness :
    (goRunMetrics [goodLoadTest, .health, badLoadTest, .metricsGet] (0, 0)).2 ≤
      (goRunMetrics [goodLoadTest, .health, badLoadTest, .metricsGet] (0, 0)).1 :=
  metrics_errors_le_requests.1 [goodLoadTest, .health, badLoadTest, .metricsGet]
    (by decide)

/-! ### The k6 load script (k6/loadtest.js) -/

/-- A k6 HTTP response as observed by the script checks: status code,
Content-Type header, optional body text, and the result of `r.json()`:
`none` when parsing throws, `some none` when it parses without an `ok`
field, `some (some b)` when the `ok` field is present and `b` records
whether it is strictly equal to `true`. -/
structure K6Response where
  status : Int
  contentType : String
  body : Option String
  jsonOk : Option (Option Bool)
  duration : Int
  waiting : Int
deriving DecidableEq

/-- ASCII lower-casing, embedding `String.prototype.toLowerCase` on header
values. -/
def lowerStr (s : String) : String := ⟨s.data.map Char.toLower⟩

/-- Whether the first character list is a prefix of the second. -/
def charsHavePre : List Char → List Char → Bool
  | [], _ => true
  | _ :: _, [] => false
  | p :: ps, c :: cs => p == c && charsHavePre ps cs

/-- Whether `pat` occurs as a contiguous run of the character list. -/
def charsContain (pat : List Char) : List Char → Bool
  | [] => charsHavePre pat []
  | c :: cs => charsHavePre pat (c :: cs) || charsContain pat cs

/-- Substring test embedding `String.prototype.includes`. -/
def strContainsSub (s pat : String) : Bool := charsContain pat.data s.data

/-- Check `"status is 200/201"`. -/
def k6StatusCheck (r : K6Response) : Bool := r.status == 200 || r.status == 201

/-- Check `"content-type json"`. -/
def k6ContentTypeCheck (r : K6Response) : Bool :=
  strContainsSub (lowerStr r.contentType) "application/json"

/-- Check `"has body"`: `!!r.body && r.body.length > 0`. -/
def k6BodyCheck (r : K6Response) : Bool :=
  match r.body with
  | none => false
  | some s => decide (0 < s.length)

/-- Check `"ok field true (if exists)"`: parse failure gives false, a missing
`ok` field gives true, otherwise `j.ok === true`. -/
def k6OkFieldCheck (r : K6Response) : Bool :=
  match r.jsonOk with
  | none => false
  | some none => true
  | some (some b) => b

/-- The `check(res, {...})` call of the script (k6/loadtest.js lines 74-87):
k6 evaluates every named check and returns true iff all of them pass. -/
def k6Ok (r : K6Response) : Bool :=
  [k6StatusCheck r, k6ContentTypeCheck r, k6BodyCheck r, k6OkFieldCheck r].all id

/-- C3 (counterexample): a completed response with status 200, Content-Type
`text/html` and an unparseable body is recorded as a failure even though its
status code is in the default success set, so recorded success is not
equivalent to `status in {200, 201}`. -/
theorem k6_success_not_status_only :
    ¬ (k6Ok ⟨200, "text/html", some "hello", none, 3, 1⟩ = true ↔
      ((⟨200, "text/html", some "hello", none, 3, 1⟩ : K6Response).status = 200 ∨
       (⟨200, "text/html", some "hello", none, 3, 1⟩ : K6Response).status = 201)) := by
  decide

/-- C3 (amended): the harness marks an iteration outcome successful iff the
status code is in `{200, 201}` AND the lower-cased Content-Type contains
`application/json` AND the body is present and nonempty AND the parsed `ok`
field is absent or strictly `true` (an unparseable body fails). -/
theorem k6_success_iff_all_checks :
    ∀ r : K6Response, k6Ok r = true ↔
      ((r.status = 200 ∨ r.status = 201) ∧
        k6ContentTypeCheck r = true ∧ k6BodyCheck r = true ∧
        k6OkFieldCheck r = true) := by
  intro r
  simp [k6Ok, k6StatusCheck, List.all, Bool.or_eq_true, beq_iff_eq, and_assoc]

/-- The state of the four custom k6 metric series (k6/loadtest.js lines 6-9):
two Trend series, the `api_ok` Rate samples, and the `api_errors` Counter. -/
structure K6Metrics where
  durations : List Int
  ttfbs : List Int
  okSamples : List Bool
  errors : Nat
deriving DecidableEq

/-- One iteration of the script default function after the response arrives
(k6/loadtest.js lines 71-90): `apiDuration.add`, `apiTTFB.add`, the `check`
call, `apiOK.add(ok)`, and `apiErr.add(1)` exactly when the check failed.
No failure path throws: the function always records and returns. -/
def k6Iterate (s : K6Metrics) (r : K6Response) : K6Metrics :=
  { durations := s.durations ++ [r.duration]
    ttfbs := s.ttfbs ++ [r.waiting]
    okSamples := s.okSamples ++ [k6Ok r]
    errors := if k6Ok r then s.errors else s.errors + 1 }

/-- The virtual-user loop: one `k6Iterate` per completed response. -/
def k6RunLoop (s : K6Metrics) (rs : List K6Response) : K6Metrics :=
  rs.foldl k6Iterate s

/-- C5: every iteration records exactly one sample into each metric series
(duration, TTFB, success rate), increments the error counter exactly when the
outcome is a failure, and a failed response never terminates the loop: after
any response sequence every response has been recorded. -/
theorem k6_iteration_records_each_metric_once :
    (∀ (s : K6Metrics) (r : K6Response),
      (k6Iterate s r).durations.length = s.durations.length + 1 ∧
      (k6Iterate s r).ttfbs.length = s.ttfbs.length + 1 ∧
      (k6Iterate s r).okSamples.length = s.okSamples.length + 1 ∧
      (k6Iterate s r).errors = s.errors + (if k6Ok r then 0 else 1)) ∧
    (∀ (s : K6Metrics) (rs : List K6Response),
      (k6RunLoop s rs).durations.length = s.durations.length + rs.length ∧
      (k6RunLoop s rs).errors ≤ s.errors + rs.length) := by
  constructor
  · intro s r
    refine ⟨by simp [k6Iterate], by simp [k6Iterate], by simp [k6Iterate], ?_⟩
    by_cases h : k6Ok r <;> simp [k6Iterate, h]
  · intro s rs
    induction rs generalizing s with
    | nil => simp [k6RunLoop]
    | cons r rest ih =>
      have hstep : k6RunLoop s (r :: rest) = k6RunLoop (k6Iterate s r) rest := rfl
      rw [hstep]
      obtain ⟨ihd, ihe⟩ := ih (k6Iterate s r)
      constructor
      · rw [ihd]
        simp [k6Iterate]
        omega
      · refine le_trans ihe ?_
        have herr : (k6Iterate s r).errors ≤ s.errors + 1 := by
          by_cases h : k6Ok r <;> simp [k6Iterate, h]
        have hlen : (r :: rest).length = rest.length + 1 := rfl
        omega

/-! ### The request issued by each k6 iteration -/

/-- An HTTP request as assembled by the k6 `http` module. -/
structure HttpRequest where
  method : String
  url : String
  body : Option String
  headers : List (String × String)
deriving DecidableEq

/-- Default target base URL of the script (k6/loadtest.js line 14, `GO_BASE`
with no environment override). -/
def k6GoBase : String := "https://gosample.azmirf.my.id"

/-- The hardcoded request path (k6/loadtest.js line 20). -/
def k6Path : String := "/api/v1/data/all"

/-- `JSON.stringify({items, iterations, multiplier})` as built by
`makePayload` (k6/loadtest.js lines 47-56). -/
def makePayload (items : List Int) (iterations multiplier : Int) : String :=
  "\x7b\"items\":[" ++ String.intercalate "," (items.map toString) ++
    "],\"iterations\":" ++ toString iterations ++
    ",\"multiplier\":" ++ toString multiplier ++ "\x7d"

/-- The default payload item list (k6/loadtest.js line 50, no `ITEMS`
override). -/
def k6DefaultItems : List Int := [12, 5, 8, 20, 3, 15]

/-- The request issued by `http.get(url, payload, {headers, timeout, tags})`
(k6/loadtest.js lines 62-69).  The k6 `http.get(url, [params])` helper takes
no body parameter: it issues a GET request with an empty body, the string in
the params position contributes no params, and the third argument is ignored
entirely, so neither the payload nor the configured headers reach the wire. -/
def k6IterationRequest : HttpRequest :=
  { method := "GET"
    url := k6GoBase ++ k6Path
    body := none
    headers := [] }

/-- C4: the request issued on each iteration is a bodiless GET without the
configured Content-Type header, even though `makePayload` builds a nonempty
JSON document with the items, iteration count and multiplier: the payload is
never sent.  (Evaluates the code at the default configuration; the claim
that the payload is the request body fails on every iteration.) -/
theorem k6_iteration_request_has_no_body :
    k6IterationRequest.method = "GET" ∧
    k6IterationRequest.body = none ∧
    k6IterationRequest.headers = [] ∧
    makePayload k6DefaultItems 4 3 =
      "\x7b\"items\":[12,5,8,20,3,15],\"iterations\":4,\"multiplier\":3\x7d" ∧
    makePayload k6DefaultItems 4 3 ≠ "" := by
  refine ⟨rfl, rfl, rfl, by decide, by decide⟩

/-! ### RampScheduler stage interpolation -/

/-- One ramp segment: a duration and a target concurrency
(k6/loadtest.js lines 31-37 configure five of these). -/
structure Stage where
  duration : ℚ
  target : ℚ
deriving DecidableEq

/-- Modelled from the spec: the ramp interpolation `tick(elapsed) ->
desired_concurrency` is implemented inside the external k6 engine, not in
this repository; only the stage list lives in the source.  Per the spec,
desired concurrency is the piecewise-linear interpolation between consecutive
stage boundary targets indexed by cumulative elapsed time, starting from 0; a
zero-duration stage jumps instantaneously to its target at its boundary; and
after the last stage ends the desired concurrency is 0. -/
def tick (prev : ℚ) : List Stage → ℚ → ℚ
  | [], _ => 0
  | [s], t =>
    if t ≤ s.duration then
      (if s.duration = 0 then s.target
       else prev + (s.target - prev) * t / s.duration)
    else 0
  | s :: s2 :: rest, t =>
    if t < s.duration then prev + (s.target - prev) * t / s.duration
    else tick s.target (s2 :: rest) (t - s.duration)

/-- The cumulative elapsed time at the end of stage `k`. -/
def boundaryAt (stages : List Stage) (k : Nat) : ℚ :=
  ((stages.take (k + 1)).map Stage.duration).sum

/-- The total configured run duration. -/
def totalDuration (stages : List Stage) : ℚ :=
  (stages.map Stage.duration).sum

/-- The concrete stage list of the script (k6/loadtest.js lines 31-37). -/
def k6Stages : List Stage := [⟨30, 10⟩, ⟨60, 10⟩, ⟨30, 50⟩, ⟨60, 50⟩, ⟨30, 0⟩]

theorem tick_at_zero (prev : ℚ) (stages : List Stage)
    (hpos : ∀ s ∈ stages, 0 < s.duration) (hne : stages ≠ []) :
    tick prev stages 0 = prev := by
  match stages with
  | [] => exact absurd rfl hne
  | [s] =>
    have hd : 0 < s.duration := hpos s (by simp)
    simp [tick, le_of_lt hd, ne_of_gt hd]
  | s :: s2 :: rest =>
    have hd : 0 < s.duration := hpos s (by simp)
    simp [tick, hd]

theorem boundaryAt_pos (stages : List Stage) (k : Nat) (hk : k < stages.length)
    (hpos : ∀ s ∈ stages, 0 < s.duration) : 0 < boundaryAt stages k := by
  unfold boundaryAt
  apply List.sum_pos
  · intro x hx
    simp only [List.mem_map] at hx
    obtain ⟨s, hs, rfl⟩ := hx
    exact hpos s (List.mem_of_mem_take hs)
  · have hlen : ((stages.take (k + 1)).map Stage.duration).length = (k + 1) ⊓ stages.length := by
      rw [List.length_map, List.length_take]
    intro hcon
    rw [hcon] at hlen
    simp at hlen
    omega

theorem tick_boundary (stages : List Stage) :
    ∀ (prev : ℚ) (k : Nat) (hk : k < stages.length),
      (∀ s ∈ stages, 0 < s.duration) →
      tick prev stages (boundaryAt stages k) = (stages.get ⟨k, hk⟩).target := by
  induction stages with
  | nil =>
    intro prev k hk
    exact absurd hk (by simp)
  | cons s rest ih =>
    intro prev k hk hpos
    cases k with
    | zero =>
      have hb : boundaryAt (s :: rest) 0 = s.duration := by
        simp [boundaryAt]
      rw [hb]
      have hd : 0 < s.duration := hpos s (by simp)
      cases rest with
      | nil =>
        show tick prev [s] s.duration = s.target
        rw [show tick prev [s] s.duration =
            (if s.duration ≤ s.duration then
              (if s.duration = 0 then s.target
               else prev + (s.target - prev) * s.duration / s.duration)
             else 0) from rfl]
        rw [if_pos (le_refl _), if_neg (ne_of_gt hd)]
        field_simp
      | cons s2 r2 =>
        show tick prev (s :: s2 :: r2) s.duration = s.target
        rw [show tick prev (s :: s2 :: r2) s.duration =
            (if s.duration < s.duration then
              prev + (s.target - prev) * s.duration / s.duration
             else tick s.target (s2 :: r2) (s.duration - s.duration)) from rfl]
        rw [if_neg (lt_irrefl _), sub_self]
        exact tick_at_zero s.target (s2 :: r2)
          (fun x hx => hpos x (by simp [hx])) (by simp)
    | succ k =>
      cases rest with
      | nil =>
        exact absurd hk (by simp)
      | cons s2 r2 =>
        have hd : 0 < s.duration := hpos s (by simp)
        have hk2 : k < (s2 :: r2).length := by
          simpa using Nat.lt_of_succ_lt_succ hk
        have hbpos : 0 < boundaryAt (s2 :: r2) k :=
          boundaryAt_pos (s2 :: r2) k hk2 (fun x hx => hpos x (by simp [hx]))
        have hb : boundaryAt (s :: s2 :: r2) (k + 1) =
            s.duration + boundaryAt (s2 :: r2) k := by
          simp [boundaryAt, List.take_succ_cons]
        rw [hb]
        rw [show tick prev (s :: s2 :: r2) (s.duration + boundaryAt (s2 :: r2) k) =
            (if s.duration + boundaryAt (s2 :: r2) k < s.duration then
              prev + (s.target - prev) * (s.duration + boundaryAt (s2 :: r2) k) / s.duration
             else tick s.target (s2 :: r2)
               (s.duration + boundaryAt (s2 :: r2) k - s.duration)) from rfl]
        rw [if_neg (by linarith), add_sub_cancel_left]
        rw [ih s.target k hk2 (fun x hx => hpos x (by simp [hx]))]
        simp [List.get_cons_succ]

theorem tick_after_end (stages : List Stage) :
    ∀ (prev t : ℚ), (∀ s ∈ stages, 0 ≤ s.duration) → totalDuration stages < t →
      tick prev stages t = 0 := by
  induction stages with
  | nil =>
    intro prev t _ _
    rfl
  | cons s rest ih =>
    intro prev t hpos hgt
    cases rest with
    | nil =>
      have htot : totalDuration [s] = s.duration := by simp [totalDuration]
      rw [htot] at hgt
      show (if t ≤ s.duration then
          (if s.duration = 0 then s.target
           else prev + (s.target - prev) * t / s.duration)
         else 0) = 0
      rw [if_neg (by linarith)]
    | cons s2 r2 =>
      have hrest0 : 0 ≤ totalDuration (s2 :: r2) := by
        apply List.sum_nonneg
        intro x hx
        simp only [List.mem_map] at hx
        obtain ⟨u, hu, rfl⟩ := hx
        exact hpos u (by simp [hu])
      have htot : totalDuration (s :: s2 :: r2) =
          s.duration + totalDuration (s2 :: r2) := by
        simp [totalDuration]
      rw [htot] at hgt
      show (if t < s.duration then prev + (s.target - prev) * t / s.duration
         else tick s.target (s2 :: r2) (t - s.duration)) = 0
      rw [if_neg (by linarith)]
      exact ih s.target (t - s.duration)
        (fun x hx => hpos x (by simp [hx])) (by linarith)

/-- The first stage of the degenerate two-stage list used as the C7
counterexample: duration 1, target 5, followed by a zero-duration jump to 9
at the same boundary timestamp. -/
def c7Stage0 : Stage := ⟨1, 5⟩

/-- A stage list with a zero-duration second stage: both stages share the
boundary timestamp 1 but declare targets 5 and 9. -/
def c7DegStages : List Stage := [c7Stage0, ⟨0, 9⟩]

/-- C7 (counterexample): with a zero-duration stage, two stages share one
boundary timestamp with different targets, so the interpolated concurrency at
the boundary of stage 0 (timestamp 1) is the jump target 9, not the declared
target 5 of stage 0 — the boundary property fails for this stage list under
any single-valued tick function. -/
theorem tick_zero_duration_boundary_conflict :
    tick 0 c7DegStages (boundaryAt c7DegStages 0) = 9 ∧
      c7Stage0.target = 5 ∧ (9 : ℚ) ≠ 5 := by
  refine ⟨?_, rfl, by norm_num⟩
  have hb : boundaryAt c7DegStages 0 = 1 := by
    simp [boundaryAt, c7DegStages, c7Stage0]
  rw [hb]
  show (if (1 : ℚ) < c7Stage0.duration then
      0 + (c7Stage0.target - 0) * 1 / c7Stage0.duration
     else tick c7Stage0.target [⟨0, 9⟩] (1 - c7Stage0.duration)) = 9
  rw [if_neg (by norm_num [c7Stage0])]
  show tick c7Stage0.target [⟨0, 9⟩] (1 - 1) = 9
  rw [sub_self]
  show (if (0 : ℚ) ≤ (0 : ℚ) then
      (if (0 : ℚ) = 0 then (9 : ℚ)
       else c7Stage0.target + ((9 : ℚ) - c7Stage0.target) * 0 / 0)
     else 0) = 9
  norm_num

/-- C7 (amended): for every stage list with positive durations, the desired
concurrency produced by tick(elapsed) at each stage boundary timestamp equals
that stage declared target exactly; and for every stage list with
nonnegative durations and every elapsed time strictly after the last stage
ends, the desired concurrency is 0.  (A zero-duration stage makes two stages
share a boundary timestamp with different targets, so the boundary property
cannot hold there; the jump target wins.) -/
theorem tick_boundary_targets :
    (∀ (stages : List Stage) (prev : ℚ) (k : Nat) (hk : k < stages.length),
      (∀ s ∈ stages, 0 < s.duration) →
      tick prev stages (boundaryAt stages k) = (stages.get ⟨k, hk⟩).target) ∧
    (∀ (stages : List Stage) (prev t : ℚ),
      (∀ s ∈ stages, 0 ≤ s.duration) → totalDuration stages < t →
      tick prev stages t = 0) :=
  ⟨fun stages prev k hk hpos => tick_boundary stages prev k hk hpos,
   fun stages prev t h1 h2 => tick_after_end stages prev t h1 h2⟩

/-- C7 (witness): on the concrete k6 stage list, the boundary of stage 2
(timestamp 120) yields exactly its declared target 50, and at 211 seconds
(after the 210-second ramp ends) the desired concurrency is 0. -/
theorem tick_boundary_targets_witness :
    tick 0 k6Stages (boundaryAt k6Stages 2) = 50 ∧ tick 0 k6Stages 211 = 0 := by
  constructor
  · have h := tick_boundary_targets.1 k6Stages 0 2 (by norm_num [k6Stages])
      (by intro s hs; fin_cases hs <;> norm_num)
    simpa [k6Stages] using h
  · exact tick_boundary_targets.2 k6Stages 0 211
      (by intro s hs; fin_cases hs <;> norm_num)
      (by norm_num [totalDuration, k6Stages])
